import Mathlib

/-!
Verification development for the takbench harness (`bench/takbench.py`).

The Python source is shallowly embedded: pure computations become Lean
functions, subprocess/filesystem interaction is modelled by passing the
observed data explicitly, Python `int` becomes `Int` (with `Nat` for values
that are list lengths or counters by construction), Python `float` ratios
become exact rationals, and raising an exception becomes `Except.error`.
Line numbers in doc comments refer to `bench/takbench.py`.
-/

namespace Takbench

/-- Model of Python `str.strip()`: drop whitespace characters from both ends
of the string. -/
def pyStrip (s : String) : String :=
  ⟨((s.data.dropWhile Char.isWhitespace).reverse.dropWhile Char.isWhitespace).reverse⟩

/-- Lexicographic order test on character lists, by code point (the order
Python uses to compare strings). -/
def charsLe : List Char → List Char → Bool
  | [], _ => true
  | _ :: _, [] => false
  | a :: xs, b :: ys => if a < b then true else if b < a then false else charsLe xs ys

/-- Boolean string order test, used to model Python `sorted` on strings. -/
def strLe (a b : String) : Bool :=
  charsLe a.data b.data

/-- Model of Python `s.startswith(pre)`. -/
def strStartsWith (pre s : String) : Bool :=
  List.isPrefixOf pre.data s.data

/-- Containment of a pattern in a character list, checked at every suffix. -/
def charsContain (needle : List Char) : List Char → Bool
  | [] => needle.isEmpty
  | c :: rest => List.isPrefixOf needle (c :: rest) || charsContain needle rest

/-- Model of Python substring containment `needle in haystack`. -/
def strIn (needle haystack : String) : Bool :=
  charsContain needle.data haystack.data

/-- Model of Python `str.lower()` on the ASCII texts handled here. -/
def strToLower (s : String) : String :=
  ⟨s.data.map Char.toLower⟩

/-- Result of running an external command: the `ExecResult` dataclass
(takbench.py lines 23-29). -/
structure ExecResult where
  command : String
  exitCode : Int
  stdout : String
  stderr : String
  timedOut : Bool
deriving DecidableEq

/-- Embedding of `test_command_executed` (takbench.py lines 178-185).
Python `bool(s)` on a string is `s ≠ ""`, so the last line
`bool(result.command.strip())` tests that the stripped command is
non-empty. -/
def test_command_executed : Option ExecResult → Bool
  | none => false
  | some result =>
    if result.timedOut then false
    else if result.exitCode == 127 then false
    else !(pyStrip result.command == "")

/-- Fragment of `main` (takbench.py lines 1577 and 1606-1607): the validity
reason "public_tests_not_executed" is appended to `invalid_reasons` exactly
when `test_command_executed` of the public test result is false. -/
def publicTestsNotExecutedRaised (publicResult : ExecResult) : Bool :=
  !(test_command_executed (some publicResult))

/-- JSON values as produced by `json.loads`. JSON numbers are restricted to
integers (the task schema uses integer ids and counters) and Python booleans
are represented as the integers 0/1, matching Python where `bool` is a
subclass of `int` (`isinstance(True, int)` holds, and `True == 1`).
Python `None` is `null`. -/
inductive JVal where
  | null : JVal
  | num : Int → JVal
  | str : String → JVal
  | arr : List JVal → JVal
  | obj : List (String × JVal) → JVal

/-- Equality test between the scalar JSON values that can appear in a
deduplicated tag list. Python `==` between values of different scalar types
is false, `None == None` holds, and numbers and strings compare by value. -/
def scalarEq : JVal → JVal → Bool
  | .null, .null => true
  | .num a, .num b => a == b
  | .str a, .str b => a == b
  | _, _ => false

/-- Pointwise list equality by a given element test (Python `==` on lists). -/
def listEqBy (eq : JVal → JVal → Bool) : List JVal → List JVal → Bool
  | [], [] => true
  | x :: xs, y :: ys => eq x y && listEqBy eq xs ys
  | _, _ => false

/-- Insert into an ascending list, by a boolean order test. -/
def insertAsc {α : Type} (le : α → α → Bool) (a : α) : List α → List α
  | [] => [a]
  | b :: t => if le a b then a :: b :: t else b :: insertAsc le a t

/-- Insertion sort, ascending by a boolean order test (model of Python
`sorted`). -/
def sortAsc {α : Type} (le : α → α → Bool) (xs : List α) : List α :=
  xs.foldr (insertAsc le) []

/-- Model of Python `sorted(set(xs))` on a list of JSON values, as used by
the tag normalization check. `set()` raises `TypeError` on unhashable
elements (lists and dicts). `sorted` compares elements pairwise and raises
`TypeError` on values of incomparable types; a deduplicated list of length
at most 1 is never compared, a homogeneous number list and a homogeneous
string list sort ascending. -/
def pySortedSetScalars (xs : List JVal) : Except String (List JVal) :=
  if xs.any (fun x => match x with | .arr _ => true | .obj _ => true | _ => false) then
    .error "TypeError: unhashable type"
  else
    let dedup := xs.foldl
      (fun acc x => if acc.any (fun y => scalarEq y x) then acc else acc ++ [x]) []
    if dedup.length ≤ 1 then .ok dedup
    else if dedup.all (fun x => match x with | .num _ => true | _ => false) then
      .ok ((sortAsc (fun a b => decide (a ≤ b))
        (dedup.filterMap (fun x => match x with | .num n => some n | _ => none))).map JVal.num)
    else if dedup.all (fun x => match x with | .str _ => true | _ => false) then
      .ok ((sortAsc strLe
        (dedup.filterMap (fun x => match x with | .str s => some s | _ => none))).map JVal.str)
    else .error "TypeError: unorderable types"

/-- Model of Python `value.get(key, default)`: the attribute lookup `.get`
on a non-dict value raises `AttributeError`; on a dict it returns the bound
value or the default. Parsed JSON objects have unique keys (`json.loads`
keeps one value per key), looked up with `List.lookup`. -/
def pyGet (v : JVal) (key : String) (dflt : JVal) : Except String JVal :=
  match v with
  | .obj fields => .ok ((fields.lookup key).getD dflt)
  | _ => .error "AttributeError"

/-- One normalization-issue record appended by `load_tasks`: a dict with
keys `file` and `issue` (takbench.py lines 542-547 etc.). -/
structure Issue where
  file : String
  issue : String
deriving DecidableEq

/-- Content of one task-store file, as seen by `json.loads`: either text it
rejects (raising `JSONDecodeError`) or a parsed JSON value. -/
inductive TaskContent where
  | malformed : TaskContent
  | parsed : JVal → TaskContent

/-- Tag normalization check of `load_tasks` (lines 550-557): when the `tags`
value is a list, flag the file unless the list equals `sorted(set(tags))`;
the attribute access and `sorted`/`set` may raise. -/
def checkTags (fileName : String) (task : JVal) : Except String (List Issue) := do
  let tags ← pyGet task "tags" (.arr [])
  match tags with
  | .arr xs =>
    let s ← pySortedSetScalars xs
    if listEqBy scalarEq xs s then pure [] else pure [⟨fileName, "tags_not_sorted_unique"⟩]
  | _ => pure []

/-- Dependency-id extraction of `load_tasks` (lines 559-571): an id is taken
from each integer entry, or from the integer `id` field of each dict entry;
other entries contribute nothing. -/
def depIdsOf (dependsOn : JVal) : List Int :=
  match dependsOn with
  | .arr deps =>
    deps.filterMap (fun dep =>
      match dep with
      | .obj fields =>
        match (fields.lookup "id").getD .null with
        | .num n => some n
        | _ => none
      | .num n => some n
      | _ => none)
  | _ => []

/-- Dependency normalization check of `load_tasks` (lines 573-579): flag the
file when the extracted id list is non-empty and differs from
`sorted(set(dep_ids))`. -/
def checkDeps (fileName : String) (dependsOn : JVal) : List Issue :=
  let depIds := depIdsOf dependsOn
  let sortedUnique := sortAsc (fun a b => decide (a ≤ b))
    (depIds.foldl (fun acc x => if acc.contains x then acc else acc ++ [x]) [])
  if depIds ≠ [] ∧ depIds ≠ sortedUnique then [⟨fileName, "depends_on_not_sorted_unique"⟩]
  else []

/-- Title normalization check of `load_tasks` (lines 581-588): flag the file
when the `title` value is a string that differs from its stripped form. -/
def checkTitle (fileName : String) (title : JVal) : List Issue :=
  match title with
  | .str t => if t ≠ pyStrip t then [⟨fileName, "title_not_trimmed"⟩] else []
  | _ => []

/-- Scan step of `load_tasks` over the name-sorted file list, accumulating
the task list and issue list. A file whose text fails JSON parsing appends
one "invalid_json" issue and the scan continues. A file whose text parses
is appended to the task list and then inspected; the first inspection,
`task.get("tags", [])`, raises `AttributeError` on any non-dict value, and
an uncaught exception (modelled as `Except.error`) aborts the whole scan. -/
def loadTasksGo : List (String × TaskContent) → List JVal → List Issue →
    Except String (List JVal × List Issue)
  | [], tasks, issues => .ok (tasks, issues)
  | (fileName, .malformed) :: rest, tasks, issues =>
    loadTasksGo rest tasks (issues ++ [⟨fileName, "invalid_json"⟩])
  | (fileName, .parsed task) :: rest, tasks, issues => do
    let tagIssues ← checkTags fileName task
    let dependsOn ← pyGet task "depends_on" (.arr [])
    let titleVal ← pyGet task "title" .null
    loadTasksGo rest (tasks ++ [task])
      (issues ++ tagIssues ++ checkDeps fileName dependsOn ++ checkTitle fileName titleVal)

/-- Embedding of `load_tasks` (takbench.py lines 529-590). The directory
scan `sorted(tasks_dir.glob("*.json"), key=lambda p: p.name)` is modelled by
taking the list of (file name, structured content) pairs and sorting it by
name. -/
def load_tasks (files : List (String × TaskContent)) :
    Except String (List JVal × List Issue) :=
  loadTasksGo (sortAsc (fun a b => strLe a.1 b.1) files) [] []

/-- One commit record built by `collect_git_metrics` (lines 754-763) from
`git show` output: the dict's `file_count` is always `len(files)` and
`lines_changed` sums the numstat added+removed columns, so only the list of
changed files and the line total are carried. -/
structure Commit where
  sha : String
  message : String
  timestamp : Int
  files : List String
  linesChanged : Nat
deriving DecidableEq

/-- Characters matched by the regex class `\w` on the ASCII commit subjects
modelled here. -/
def isWordChar (c : Char) : Bool :=
  c.isAlphanum || c == '_'

/-- Test for the weak-subject regex `(?i)^(wip|update|fix|changes|misc|tmp)\b`
(line 778): a case-insensitive weak word at the start of the subject,
followed by a non-word character or the end of the string. -/
def weakMessageMatch (s : String) : Bool :=
  ["wip", "update", "fix", "changes", "misc", "tmp"].any (fun w =>
    let lower := (strToLower s).data
    List.isPrefixOf w.data lower &&
      (match lower.drop w.data.length with
       | [] => true
       | c :: _ => !isWordChar c))

/-- Derived metrics dict returned by `collect_git_metrics` (lines 765-814).
The subprocess-driven construction of the commit list (lines 717-763) is
I/O and is modelled by taking the chronological commit list as input; the
Python float ratios are modelled as exact rationals. -/
structure GitMetrics where
  commitCount : Nat
  commits : List Commit
  firstTakCommitIndex : Option Nat
  firstCodeCommitIndex : Option Nat
  smallCommitRatio : ℚ
  goodMessageRatio : ℚ
  finalCommitRatio : ℚ
  commitsAfterChange : Nat
  totalLinesChanged : Nat

/-- Embedding of the metric derivation of `collect_git_metrics`
(takbench.py lines 765-814) over the chronological commit list between the
baseline and head, with the change-injection epoch truncated to whole
seconds (`int(change_epoch)`). -/
def collect_git_metrics (commits : List Commit) (changeEpoch : Option Int) : GitMetrics :=
  let commitCount := commits.length
  let firstTak := commits.findIdx? (fun c => c.files.any (fun p => strStartsWith ".tak/" p))
  let firstCode := commits.findIdx? (fun c => c.files.any (fun p => !strStartsWith ".tak/" p))
  let smallCommits := commits.countP
    (fun c => decide (0 < c.files.length) && decide (c.files.length ≤ 3))
  let goodMessages := commits.countP (fun c =>
    let message := pyStrip c.message
    decide (10 ≤ message.length) && !weakMessageMatch message)
  let totalLinesChanged := (commits.map (fun c => c.linesChanged)).sum
  let smallCommitRatio : ℚ :=
    if 0 < commitCount then (smallCommits : ℚ) / (commitCount : ℚ) else 0
  let goodMessageRatio : ℚ :=
    if 0 < commitCount then (goodMessages : ℚ) / (commitCount : ℚ) else 0
  let finalCommitRatio : ℚ :=
    match commits.getLast? with
    | some last =>
      if 0 < totalLinesChanged then (last.linesChanged : ℚ) / (totalLinesChanged : ℚ) else 0
    | none => 0
  let commitsAfterChange :=
    match changeEpoch with
    | some ce => commits.countP (fun c => decide (ce ≤ c.timestamp))
    | none => 0
  { commitCount := commitCount, commits := commits,
    firstTakCommitIndex := firstTak, firstCodeCommitIndex := firstCode,
    smallCommitRatio := smallCommitRatio, goodMessageRatio := goodMessageRatio,
    finalCommitRatio := finalCommitRatio, commitsAfterChange := commitsAfterChange,
    totalLinesChanged := totalLinesChanged }

/-- The `objective.scoring` weight map ({key: int(value)} from the manifest,
line 268): a field is `some v` exactly when the key is present, and
`run_scoring` reads it with `scoring.get(key, default)`. The manifest does
not constrain the sign of the integers. -/
structure ScoringMap where
  functionalPublic : Option Int := none
  functionalHidden : Option Int := none
  takWorkflow : Option Int := none
  gitDiscipline : Option Int := none
  changeAdaptation : Option Int := none
  bonus : Option Int := none
  penaltyManualTakFirst : Option Int := none
  penaltyManualTakAdditional : Option Int := none
  penaltyManualTakCap : Option Int := none
deriving DecidableEq

/-- The entries of the `collect_tak_metrics` dict (lines 696-713) that
`run_scoring` and the validity checks read. `inProgressCount` and
`doneCount` are `status_counts.get("in_progress", 0)` and
`status_counts.get("done", 0)`; `startEventCount` and `finishEventCount`
are `history_event_counts.get("start", 0)` and `.get("finish", 0)`. -/
structure TakMetrics where
  taskCount : Nat := 0
  epicCount : Nat := 0
  childCount : Nat := 0
  dependencyEdges : Nat := 0
  inProgressCount : Nat := 0
  doneCount : Nat := 0
  startEventCount : Nat := 0
  finishEventCount : Nat := 0
  verificationResultCount : Nat := 0
  contextCount : Nat := 0
  learningCount : Nat := 0
  contractTaskCount : Nat := 0
  contractVerificationTaskCount : Nat := 0
  tasksModifiedAfterChange : Nat := 0
  historyEventsAfterChange : Nat := 0
  normalizationIssues : List Issue := []
deriving DecidableEq

/-- The entries of the `transcript_metrics` dict (lines 907-923) that
`run_scoring` reads: the command-extracted mention counters and the
deduplicated manual-tampering evidence lines. -/
structure TranscriptMetrics where
  takVerifyMentions : Nat := 0
  pytestMentions : Nat := 0
  testCommandMentions : Nat := 0
  manualTakEditEvidence : List String := []
deriving DecidableEq

/-- Components of the tak_workflow category (lines 955-960). -/
structure TakComponents where
  earlyAdoption : Int
  planningStructure : Int
  lifecycleHygiene : Int
  verificationDiscipline : Int
deriving DecidableEq

/-- Components of the git_discipline category (lines 1015-1019). -/
structure GitComponents where
  cadence : Int
  atomicity : Int
  messageQuality : Int
deriving DecidableEq

/-- Components of the change_adaptation category (lines 1054-1058). -/
structure ChangeComponents where
  replanAfterChange : Int
  implementAndValidateChange : Int
  closeLoop : Int
deriving DecidableEq

/-- Components of the bonus category (lines 1086-1090). -/
structure BonusComponents where
  contractRichness : Int
  verifyUsage : Int
  contextOrLearnings : Int
deriving DecidableEq

/-- Components of the penalties block (lines 1114-1119). -/
structure PenaltyComponents where
  manualTakEdits : Int
  noCommits : Int
  fewCommits : Int
  giantFinalCommit : Int
deriving DecidableEq

/-- The "functional" block of the report (lines 1149-1155). -/
structure FunctionalBlock where
  score : Int
  max : Int
  publicPass : Bool
  hiddenPass : Bool
  changeProbePass : Bool
deriving DecidableEq

/-- The "tak_workflow" block of the report (lines 1156-1160). -/
structure TakBlock where
  score : Int
  max : Int
  components : TakComponents
deriving DecidableEq

/-- The "git_discipline" block of the report (lines 1161-1165). -/
structure GitBlock where
  score : Int
  max : Int
  components : GitComponents
deriving DecidableEq

/-- The "change_adaptation" block of the report (lines 1166-1172); the
injection epoch is carried through unchanged, truncated to seconds. -/
structure ChangeBlock where
  score : Int
  max : Int
  components : ChangeComponents
  changeInjected : Bool
  changeInjectedEpoch : Option Int
deriving DecidableEq

/-- The "bonus" block of the report (lines 1173-1177). -/
structure BonusBlock where
  score : Int
  max : Int
  components : BonusComponents
deriving DecidableEq

/-- The "penalties" block of the report (lines 1178-1182). -/
structure PenaltiesBlock where
  score : Int
  components : PenaltyComponents
  manualTakEditIncidents : Nat
deriving DecidableEq

/-- The "totals" block of the report (lines 1183-1189). -/
structure Totals where
  core : Int
  bonus : Int
  penalties : Int
  raw : Int
  clamped : Int
deriving DecidableEq

/-- The ScoreReport dict returned by `run_scoring` (lines 1148-1190). -/
structure ScoreReport where
  functional : FunctionalBlock
  takWorkflow : TakBlock
  gitDiscipline : GitBlock
  changeAdaptation : ChangeBlock
  bonus : BonusBlock
  penalties : PenaltiesBlock
  totals : Totals
deriving DecidableEq

/-- Embedding of `run_scoring` (takbench.py lines 926-1190), the pure
scoring engine, over the weight map and the pre-computed metrics bundles.
Float thresholds such as `0.7` become the exact rationals they denote. -/
def run_scoring (scoring : ScoringMap)
    (publicResult : ExecResult) (hiddenResult : Option ExecResult)
    (changeProbeResult : Option ExecResult)
    (tak : TakMetrics) (git : GitMetrics) (transcript : TranscriptMetrics)
    (changeInjected : Bool) (changeInjectedEpoch : Option Int) : ScoreReport :=
  let wPublic := scoring.functionalPublic.getD 15
  let wHidden := scoring.functionalHidden.getD 30
  let wTak := scoring.takWorkflow.getD 25
  let wGit := scoring.gitDiscipline.getD 20
  let wChange := scoring.changeAdaptation.getD 10
  let wBonusCap := scoring.bonus.getD 10
  -- Functional (lines 948-952)
  let publicPass := publicResult.exitCode == 0
  let hiddenPass := match hiddenResult with | some r => r.exitCode == 0 | none => false
  let changeProbePass := match changeProbeResult with | some r => r.exitCode == 0 | none => false
  let functionalScore := (if publicPass then wPublic else 0) + (if hiddenPass then wHidden else 0)
  -- tak workflow (lines 954-1012)
  let earlyAdoption : Int :=
    match git.firstTakCommitIndex, git.firstCodeCommitIndex with
    | some _, none => 5
    | some ft, some fc =>
      if ft ≤ fc then 5
      else if (ft : Int) - (fc : Int) ≤ 1 then 3
      else if 0 < tak.taskCount then 1 else 0
    | none, _ => if 0 < tak.taskCount then 1 else 0
  let planningStructure : Int :=
    if 1 ≤ tak.epicCount ∧ 5 ≤ tak.taskCount ∧ 3 ≤ tak.childCount then 8
    else if 4 ≤ tak.taskCount ∧ 1 ≤ tak.dependencyEdges then 6
    else if 2 ≤ tak.taskCount then 3
    else if 1 ≤ tak.taskCount then 1
    else 0
  let lifecycle1 : Int :=
    if 0 < tak.inProgressCount then 8 - min 4 (tak.inProgressCount : Int) else 8
  let lifecycle2 : Int :=
    if tak.startEventCount = 0 ∧ 0 < tak.taskCount then lifecycle1 - 2 else lifecycle1
  let lifecycle3 : Int :=
    if 0 < tak.doneCount ∧ tak.finishEventCount = 0 then lifecycle2 - 2 else lifecycle2
  let lifecycleHygiene : Int := max 0 lifecycle3
  let verificationDiscipline : Int :=
    if 0 < transcript.takVerifyMentions ∧ 0 < tak.verificationResultCount then 4
    else if 2 ≤ transcript.testCommandMentions then 2
    else if 1 ≤ transcript.testCommandMentions ∨ 1 ≤ transcript.pytestMentions then 1
    else 0
  let takComponents : TakComponents :=
    ⟨earlyAdoption, planningStructure, lifecycleHygiene, verificationDiscipline⟩
  let takWorkflowScore :=
    min wTak (earlyAdoption + planningStructure + lifecycleHygiene + verificationDiscipline)
  -- Git discipline (lines 1014-1051)
  let commitCount := git.commitCount
  let cadence : Int :=
    if 5 ≤ commitCount then 8
    else if 4 ≤ commitCount then 6
    else if 3 ≤ commitCount then 4
    else if 1 ≤ commitCount then 2
    else 0
  let atomicity : Int :=
    if (7 : ℚ)/10 ≤ git.smallCommitRatio then 8
    else if (1 : ℚ)/2 ≤ git.smallCommitRatio then 6
    else if (3 : ℚ)/10 ≤ git.smallCommitRatio then 4
    else if 0 < git.smallCommitRatio then 2
    else 0
  let messageQuality : Int :=
    if (3 : ℚ)/4 ≤ git.goodMessageRatio then 4
    else if (1 : ℚ)/2 ≤ git.goodMessageRatio then 3
    else if (1 : ℚ)/4 ≤ git.goodMessageRatio then 2
    else if 0 < git.goodMessageRatio then 1
    else 0
  let gitComponents : GitComponents := ⟨cadence, atomicity, messageQuality⟩
  let gitScoreRaw := min wGit (cadence + atomicity + messageQuality)
  -- Change adaptation (lines 1053-1083)
  let changeComponents : ChangeComponents :=
    if changeInjected then
      ⟨if 0 < tak.tasksModifiedAfterChange ∧ 0 < tak.historyEventsAfterChange then 4
        else if 0 < tak.tasksModifiedAfterChange then 2 else 0,
       if changeProbePass && hiddenPass then 4
        else if changeProbePass then 3
        else if hiddenPass then 2 else 0,
       if 1 ≤ git.commitsAfterChange ∧ tak.inProgressCount = 0 then 2
        else if 1 ≤ git.commitsAfterChange then 1 else 0⟩
    else ⟨0, 0, 0⟩
  let changeScore := min wChange (changeComponents.replanAfterChange +
    changeComponents.implementAndValidateChange + changeComponents.closeLoop)
  -- Bonus (lines 1085-1111)
  let contractRichness : Int :=
    if 2 ≤ tak.contractTaskCount ∧ 1 ≤ tak.contractVerificationTaskCount then 4
    else if 1 ≤ tak.contractTaskCount then 2 else 0
  let verifyUsage : Int :=
    if 0 < transcript.takVerifyMentions ∧ 0 < tak.verificationResultCount then 3
    else if 0 < transcript.takVerifyMentions then 1 else 0
  let contextOrLearnings : Int :=
    if 0 < tak.contextCount ∧ 0 < tak.learningCount then 3
    else if 0 < tak.contextCount ∨ 0 < tak.learningCount then 2 else 0
  let bonusComponents : BonusComponents := ⟨contractRichness, verifyUsage, contextOrLearnings⟩
  let bonusScore := min wBonusCap (contractRichness + verifyUsage + contextOrLearnings)
  -- Penalties (lines 1113-1142)
  let incidentCount := transcript.manualTakEditEvidence.length + tak.normalizationIssues.length
  let firstPenalty := scoring.penaltyManualTakFirst.getD 20
  let addPenalty := scoring.penaltyManualTakAdditional.getD 10
  let capPenalty := scoring.penaltyManualTakCap.getD 40
  let manualTakEdits : Int :=
    if 0 < incidentCount then
      min capPenalty (firstPenalty + max 0 ((incidentCount : Int) - 1) * addPenalty)
    else 0
  let noCommits : Int := if commitCount = 0 then 30 else 0
  let fewCommits : Int := if commitCount ≠ 0 ∧ commitCount < 4 then 10 else 0
  let gitScore : Int := if commitCount = 0 then 0 else gitScoreRaw
  let giantFinalCommit : Int :=
    if (3 : ℚ)/5 < git.finalCommitRatio ∧ 1 ≤ commitCount then 8 else 0
  let penaltyComponents : PenaltyComponents :=
    ⟨manualTakEdits, noCommits, fewCommits, giantFinalCommit⟩
  let penaltiesTotal := manualTakEdits + noCommits + fewCommits + giantFinalCommit
  -- Totals (lines 1144-1146)
  let coreTotal := functionalScore + takWorkflowScore + gitScore + changeScore
  let totalRaw := coreTotal + bonusScore - penaltiesTotal
  let totalClamped := max 0 totalRaw
  { functional := ⟨functionalScore, wPublic + wHidden, publicPass, hiddenPass, changeProbePass⟩,
    takWorkflow := ⟨takWorkflowScore, wTak, takComponents⟩,
    gitDiscipline := ⟨gitScore, wGit, gitComponents⟩,
    changeAdaptation := ⟨changeScore, wChange, changeComponents, changeInjected, changeInjectedEpoch⟩,
    bonus := ⟨bonusScore, wBonusCap, bonusComponents⟩,
    penalties := ⟨penaltiesTotal, penaltyComponents, incidentCount⟩,
    totals := ⟨coreTotal, bonusScore, penaltiesTotal, totalRaw, totalClamped⟩ }

/-- The fields of the `ObjectiveConfig` dataclass (takbench.py lines 32-57)
consumed by the session driver and the scoring engine; integer manifest
fields keep Python `int` as `Int`. Path and description fields only feed
I/O and are omitted. -/
structure ObjectiveConfig where
  timeBudgetMinutes : Int
  pollIntervalSeconds : Int
  publicProbeIntervalSeconds : Int
  workerReadyStrategy : String
  workerReadyDelaySeconds : Int
  workerReadyTimeoutSeconds : Int
  workerReadyToken : String
  workerPromptTransport : String
  changeMinMinutes : Int
  changeTargetMinutes : Int
  phase1DoneToken : String
  finalDoneToken : String
  scoring : ScoringMap

/-- `change_min_minutes * 60` (line 1241). -/
def minChangeSeconds (o : ObjectiveConfig) : Int := o.changeMinMinutes * 60

/-- `change_target_minutes * 60` (line 1242). -/
def targetChangeSeconds (o : ObjectiveConfig) : Int := o.changeTargetMinutes * 60

/-- `time_budget_minutes * 60` (line 1243). -/
def budgetSeconds (o : ObjectiveConfig) : Int := o.timeBudgetMinutes * 60

/-- The readiness-outcome dict returned by `wait_for_worker_ready`
(lines 448-492), with the wait duration in whole seconds. -/
structure ReadyState where
  ready : Bool
  strategy : String
  waitSeconds : Nat
  reason : String
deriving DecidableEq

/-- Polling loop of the "token" readiness strategy (lines 474-492),
discretized to its 1-second sleep cadence: with clamped timeout
`T = max 1 timeout` the loop reads the transcript at seconds
`t = 0, …, T-1` and, if the token never appeared, reports
"ready_token_timeout" with `wait_seconds = T` once the deadline passes. -/
def tokenPoll (strategy token : String) (transcriptAt : Nat → String) :
    Nat → Nat → ReadyState
  | 0, t => ⟨false, strategy, t, "ready_token_timeout"⟩
  | remaining + 1, t =>
    if strIn token (transcriptAt t) then ⟨true, strategy, t, "ready_token_seen"⟩
    else tokenPoll strategy token transcriptAt remaining (t + 1)

/-- Embedding of `wait_for_worker_ready` (takbench.py lines 448-492) over
the transcript contents observed at each whole second of the wait: the
`none` strategy is immediately ready, the `delay` strategy sleeps
`max 0 delay` seconds and is then ready, and any other strategy (the
loader only admits "token" here) polls for the ready token. -/
def wait_for_worker_ready (o : ObjectiveConfig) (transcriptAt : Nat → String) : ReadyState :=
  if o.workerReadyStrategy = "none" then ⟨true, o.workerReadyStrategy, 0, "no_wait"⟩
  else if o.workerReadyStrategy = "delay" then
    ⟨true, o.workerReadyStrategy, (max 0 o.workerReadyDelaySeconds).toNat, "delay_elapsed"⟩
  else tokenPoll o.workerReadyStrategy o.workerReadyToken transcriptAt
    (max 1 o.workerReadyTimeoutSeconds).toNat 0

/-- Observable environment of one driver run. The main loop's clock starts
at 0 at `start_epoch` (line 1240) and all three observations are indexed by
it: the worker transcript content, the exit code a public probe started at
that second returns, and tmux pane liveness. The readiness wait happens
before `start_epoch`; its transcript snapshots are indexed separately by
seconds since the wait began. -/
structure LoopEnv where
  readyTranscriptAt : Nat → String
  transcriptAt : Nat → String
  probeExitAt : Nat → Int
  paneDeadAt : Nat → Bool

/-- State carried between iterations of the `drive_worker_session` main
loop (lines 1240-1308). -/
structure LoopState where
  now : Nat
  nextPublicProbeAt : Int
  phase1DoneSeen : Bool
  finalDoneSeen : Bool
  publicProbePass : Bool
  changeInjected : Bool
  changeInjectedEpoch : Option Nat
deriving DecidableEq

/-- Record of one executed main-loop iteration, for stating temporal
properties: the flag values after this iteration's updates, whether a probe
ran (with its exit code), the change-trigger value, the injection latch
before and after, the recorded injection epoch after, pane liveness, and
the loop-ending reason this iteration produced, if any. -/
structure IterRec where
  tNow : Nat
  elapsed : Int
  phase1DoneSeen : Bool
  finalDoneSeen : Bool
  publicProbePass : Bool
  probeRun : Option Int
  trigger : Bool
  injectedBefore : Bool
  injectedAfter : Bool
  epochAfter : Option Nat
  paneDead : Bool
  breakReason : Option String
deriving DecidableEq

instance : Inhabited IterRec :=
  ⟨⟨0, 0, false, false, false, none, false, false, false, none, false, none⟩⟩

/-- Projection of the change-trigger flag of an iteration record. -/
def iterTrigger (r : IterRec) : Bool := r.trigger

/-- The change prompt was injected during an iteration: the latch was clear
before it and set after it. -/
def injectionAt (r : IterRec) : Bool := !r.injectedBefore && r.injectedAfter

/-- One iteration of the `drive_worker_session` main loop (lines 1256-1308)
at loop clock `s.now`: (a) rescan the transcript for the sticky done-token
flags; (b) when the probe is due, run the public test command and
reschedule the next probe at now + interval; (c) evaluate the change
trigger from the just-updated flags and inject the change prompt if it is
true and the latch is clear, recording the timestamp; (d)-(f) the three
loop-ending checks in source order (pane death, change injected and final
token seen, time budget); (g) otherwise sleep `max 1 poll_interval`
seconds, reflected in the successor state's clock. Probe execution and
prompt delivery are modelled as instantaneous. -/
def driveLoopStep (o : ObjectiveConfig) (env : LoopEnv) (s : LoopState) :
    IterRec × LoopState × Option String :=
  let now := s.now
  let elapsed : Int := (now : Int)
  let text := env.transcriptAt now
  let phase1 := s.phase1DoneSeen || strIn o.phase1DoneToken text
  let finalSeen := s.finalDoneSeen || strIn o.finalDoneToken text
  let probeDue := decide (s.nextPublicProbeAt ≤ (now : Int))
  let probeRun : Option Int := if probeDue then some (env.probeExitAt now) else none
  let probePass := s.publicProbePass || (probeDue && (env.probeExitAt now == 0))
  let nextProbe := if probeDue then (now : Int) + o.publicProbeIntervalSeconds
    else s.nextPublicProbeAt
  let trigger := decide (minChangeSeconds o ≤ elapsed) &&
    (phase1 || probePass || decide (targetChangeSeconds o ≤ elapsed))
  let doInject := trigger && !s.changeInjected
  let injected := s.changeInjected || trigger
  let epoch := if doInject then some now else s.changeInjectedEpoch
  let dead := env.paneDeadAt now
  let breakReason : Option String :=
    if dead then some "worker_pane_dead"
    else if injected && finalSeen then some "final_done_token_seen"
    else if budgetSeconds o ≤ elapsed then some "time_budget_reached"
    else none
  (⟨now, elapsed, phase1, finalSeen, probePass, probeRun, trigger,
      s.changeInjected, injected, epoch, dead, breakReason⟩,
   ⟨now + (max 1 o.pollIntervalSeconds).toNat, nextProbe,
      phase1, finalSeen, probePass, injected, epoch⟩,
   breakReason)

/-- The `while True` main loop of `drive_worker_session`, driven by explicit
fuel (each iteration advances the clock by at least one second, so
`budget + 1` iterations always suffice). Returns the executed iteration
records in order and, unless fuel ran out, the end reason with the final
state. -/
def driveLoop (o : ObjectiveConfig) (env : LoopEnv) :
    Nat → LoopState → List IterRec × Option (String × LoopState)
  | 0, _ => ([], none)
  | fuel + 1, s =>
    match driveLoopStep o env s with
    | (r, s2, some reason) => ([r], some (reason, s2))
    | (r, s2, none) =>
      let (trace, res) := driveLoop o env fuel s2
      (r :: trace, res)

/-- Loop state at `start_epoch` (lines 1240-1254): clock 0, first probe due
at `start + probe_interval`, all flags clear, no injection epoch. -/
def initLoopState (o : ObjectiveConfig) : LoopState :=
  ⟨0, o.publicProbeIntervalSeconds, false, false, false, false, none⟩

/-- The iteration trace of a full main-loop run from the initial state. -/
def driveTrace (o : ObjectiveConfig) (env : LoopEnv) (fuel : Nat) : List IterRec :=
  (driveLoop o env fuel (initLoopState o)).1

/-- The command-log event types appended by `drive_worker_session` before
the main loop, in emission order, together with the readiness outcome and
the main-loop trace and ending. -/
structure DriveOutcome where
  preludeEvents : List String
  readyState : ReadyState
  trace : List IterRec
  ending : Option (String × LoopState)

/-- Embedding of `drive_worker_session` (takbench.py lines 1193-1325): three
"setup" sends, the prompt-transport guard (any transport other than
"tmux_buffer_paste" raises, line 1218), the "worker_start" send, the
readiness wait whose outcome is logged as a "worker_ready" event, the
"initial_prompt" buffer paste — all of which happen unconditionally on the
readiness outcome — and then the main loop, run with fuel covering the
whole time budget. -/
def drive_worker_session (o : ObjectiveConfig) (env : LoopEnv) :
    Except String DriveOutcome :=
  if o.workerPromptTransport ≠ "tmux_buffer_paste" then
    .error "Unsupported worker.prompt_transport in objective manifest"
  else
    let readyState := wait_for_worker_ready o env.readyTranscriptAt
    let (trace, ending) := driveLoop o env ((budgetSeconds o).toNat + 1) (initLoopState o)
    .ok ⟨["setup", "setup", "setup", "worker_start", "worker_ready", "initial_prompt"],
      readyState, trace, ending⟩

/-- Readiness outcome of a driver run, when the transport guard passes. -/
def driveReadyState (o : ObjectiveConfig) (env : LoopEnv) : Except String ReadyState :=
  (drive_worker_session o env).map DriveOutcome.readyState

/-- Prelude command-log event types of a driver run. -/
def drivePreludeEvents (o : ObjectiveConfig) (env : LoopEnv) : Except String (List String) :=
  (drive_worker_session o env).map DriveOutcome.preludeEvents

/-- Whether the driver entered the main loop (executed at least one
iteration). -/
def driveLoopEntered (o : ObjectiveConfig) (env : LoopEnv) : Except String Bool :=
  (drive_worker_session o env).map (fun out => !out.trace.isEmpty)

/-- A passing test execution. -/
def execPass : ExecResult := ⟨"pytest", 0, "", "", false⟩

/-- A failing (but executed) test execution. -/
def execFail : ExecResult := ⟨"pytest", 1, "", "", false⟩

/-- Git metrics of a run with no commits after the baseline. -/
def emptyGit : GitMetrics := ⟨0, [], none, none, 0, 0, 0, 0, 0⟩

/-- A weight map whose `functional_hidden` entry is negative (the manifest
loader accepts any integer weights). -/
def negHiddenScoring : ScoringMap := { functionalHidden := some (-1) }

/-- A weight map whose `change_adaptation` entry is negative. -/
def negChangeScoring : ScoringMap := { changeAdaptation := some (-1) }

/-- A commit touching exactly one file. -/
def smallCommit : Commit := ⟨"a1b2c3", "add parser skeleton", 0, ["src/parser.py"], 5⟩

/-- A commit with an empty changed-file set (e.g. `git commit --allow-empty`). -/
def emptyFilesCommit : Commit := ⟨"d4e5f6", "record an empty checkpoint", 0, [], 0⟩

/-- Predicate used to state that a commit touches at most three files. -/
def touchesAtMostThreeFiles (c : Commit) : Bool := decide (c.files.length ≤ 3)

/-- Transcript metrics holding one manual-tampering evidence line. -/
def oneEvidenceTranscript : TranscriptMetrics :=
  { manualTakEditEvidence := ["vim .tak/tasks/task_1.json"] }

/-- A concrete objective whose time budget is zero minutes, with the token
readiness strategy, a one-second ready timeout and default-shaped tokens. -/
def cfgTimeout : ObjectiveConfig :=
  ⟨0, 5, 90, "token", 4, 1, "WORKER_READY", "tmux_buffer_paste", 10, 25,
    "TAKBENCH_PHASE1_DONE", "TAKBENCH_FINAL_DONE", {}⟩

/-- An environment in which the worker emits nothing, every probe fails and
the pane stays alive. -/
def envQuiet : LoopEnv := ⟨fun _ => "", fun _ => "", fun _ => 1, fun _ => false⟩

end Takbench

namespace Takbench

/-! Theorems. Each claim of the specification is settled by exactly one
theorem below; helper lemmas come first. -/

/-- C10: `test_command_executed` is false exactly when the result is absent,
timed out, exited 127, or has a whitespace-only command string; hence the
validity reason "public_tests_not_executed" is never raised for a public
test that ran and merely exited nonzero (with a real command string and an
exit code other than 127). -/
theorem test_command_executed_spec :
    (∀ r : Option ExecResult,
      test_command_executed r = false ↔
        (r = none ∨ ∃ e, r = some e ∧
          (e.timedOut = true ∨ e.exitCode = 127 ∨ pyStrip e.command = ""))) ∧
    (∀ e : ExecResult, e.timedOut = false → e.exitCode ≠ 127 → pyStrip e.command ≠ "" →
      e.exitCode ≠ 0 → publicTestsNotExecutedRaised e = false) := by
  constructor
  · intro r
    match r with
    | none => simp [test_command_executed]
    | some e =>
      by_cases ht : e.timedOut
      · simp [test_command_executed, ht]
      · by_cases hc : e.exitCode = 127
        · simp [test_command_executed, ht, hc]
        · by_cases hs : pyStrip e.command = ""
          · simp [test_command_executed, ht, hc, hs]
          · simp [test_command_executed, ht, hc, hs]
  · intro e h1 h2 h3 _
    simp [publicTestsNotExecutedRaised, test_command_executed, h1, h2, h3]

/-- C10 witness: a public test that executed and failed with exit code 1
does not raise "public_tests_not_executed". -/
theorem test_command_executed_spec_witness :
    publicTestsNotExecutedRaised execFail = false :=
  test_command_executed_spec.2 execFail rfl (by decide) (by decide) (by decide)

/-- C2: a task-store file whose content parses as JSON but is not an object
(here the JSON array `[]`) aborts the `load_tasks` scan with an uncaught
`AttributeError` from `task.get("tags", [])` and records no "invalid_json"
issue for it, while a file whose content fails JSON parsing is handled as
the specification says: one "invalid_json" issue and the scan continues. -/
theorem load_tasks_nonobject_aborts :
    load_tasks [("task_001.json", .parsed (.arr []))] = .error "AttributeError" ∧
    load_tasks [("task_001.json", .malformed)] =
      .ok ([], [⟨"task_001.json", "invalid_json"⟩]) :=
  ⟨rfl, rfl⟩

/-- C6: the clamped total of the report equals
`max 0 (functional + tak_workflow + git_discipline + change_adaptation +
bonus − penalties)` over the report's own category scores, and is therefore
never negative. -/
theorem total_clamped_spec (scoring : ScoringMap) (pub : ExecResult)
    (hr cp : Option ExecResult) (tak : TakMetrics) (git : GitMetrics)
    (tr : TranscriptMetrics) (ci : Bool) (ce : Option Int) :
    (run_scoring scoring pub hr cp tak git tr ci ce).totals.clamped =
      max 0 ((run_scoring scoring pub hr cp tak git tr ci ce).functional.score +
        (run_scoring scoring pub hr cp tak git tr ci ce).takWorkflow.score +
        (run_scoring scoring pub hr cp tak git tr ci ce).gitDiscipline.score +
        (run_scoring scoring pub hr cp tak git tr ci ce).changeAdaptation.score +
        (run_scoring scoring pub hr cp tak git tr ci ce).bonus.score -
        (run_scoring scoring pub hr cp tak git tr ci ce).penalties.score) ∧
    0 ≤ (run_scoring scoring pub hr cp tak git tr ci ce).totals.clamped := by
  exact ⟨rfl, le_max_left 0 _⟩

/-- C7 (amended): with `change_injected = false` all three change_adaptation
components are zero, and the change_adaptation score is
`min(change_adaptation_weight, 0)` — which is zero whenever the configured
weight is nonnegative (as the default 10 is), but not for a negative
configured weight. -/
theorem change_adaptation_zero_when_not_injected (scoring : ScoringMap)
    (pub : ExecResult) (hr cp : Option ExecResult) (tak : TakMetrics)
    (git : GitMetrics) (tr : TranscriptMetrics) (ce : Option Int) :
    (run_scoring scoring pub hr cp tak git tr false ce).changeAdaptation.components =
      ⟨0, 0, 0⟩ ∧
    (run_scoring scoring pub hr cp tak git tr false ce).changeAdaptation.score =
      min (scoring.changeAdaptation.getD 10) 0 ∧
    (0 ≤ scoring.changeAdaptation.getD 10 →
      (run_scoring scoring pub hr cp tak git tr false ce).changeAdaptation.score = 0) := by
  refine ⟨rfl, rfl, fun h => ?_⟩
  have h2 : (run_scoring scoring pub hr cp tak git tr false ce).changeAdaptation.score =
      min (scoring.changeAdaptation.getD 10) 0 := rfl
  rw [h2]
  exact min_eq_right h

/-- C7 witness: with the default weights and no change injected, the
change_adaptation score is zero. -/
theorem change_adaptation_zero_witness :
    (run_scoring {} execPass none none {} emptyGit {} false none).changeAdaptation.score = 0 :=
  (change_adaptation_zero_when_not_injected {} execPass none none {} emptyGit {} none).2.2
    (by decide)

/-- C7 counterexample: with a negative configured change_adaptation weight
and `change_injected = false`, the change_adaptation score is not zero —
refuting "the change_adaptation score is zero regardless of every other
input". -/
theorem change_adaptation_zero_counterexample :
    (run_scoring negChangeScoring execPass none none {} emptyGit {} false
      none).changeAdaptation.score ≠ 0 := by
  decide

/-- C5 (amended): with a nonnegative configured `functional_hidden` weight
(as the default 30 is), replacing a failing-or-absent hidden test result by
a passing one, all else equal, never decreases the functional score. -/
theorem functional_hidden_monotone (scoring : ScoringMap) (pub : ExecResult)
    (hrFail : Option ExecResult) (hrPass : ExecResult) (cp : Option ExecResult)
    (tak : TakMetrics) (git : GitMetrics) (tr : TranscriptMetrics)
    (ci : Bool) (ce : Option Int)
    (hfail : (match hrFail with | some r => r.exitCode == 0 | none => false) = false)
    (hpass : hrPass.exitCode = 0)
    (hw : 0 ≤ scoring.functionalHidden.getD 30) :
    (run_scoring scoring pub hrFail cp tak git tr ci ce).functional.score ≤
      (run_scoring scoring pub (some hrPass) cp tak git tr ci ce).functional.score := by
  have ha : (run_scoring scoring pub hrFail cp tak git tr ci ce).functional.score =
      (if pub.exitCode == 0 then scoring.functionalPublic.getD 15 else 0) +
      (if (match hrFail with | some r => r.exitCode == 0 | none => false) then
        scoring.functionalHidden.getD 30 else 0) := rfl
  have hb : (run_scoring scoring pub (some hrPass) cp tak git tr ci ce).functional.score =
      (if pub.exitCode == 0 then scoring.functionalPublic.getD 15 else 0) +
      (if hrPass.exitCode == 0 then scoring.functionalHidden.getD 30 else 0) := rfl
  rw [ha, hb, hfail]
  have hp : (hrPass.exitCode == 0) = true := by simp [hpass]
  rw [hp]
  simp only [Bool.false_eq_true, if_false, if_true]
  have hfin : ∀ a : Int, a + 0 ≤ a + scoring.functionalHidden.getD 30 := fun a => by
    linarith
  exact hfin _

/-- C5 witness: with default weights, flipping the hidden result from
absent to passing does not decrease the functional score. -/
theorem functional_hidden_monotone_witness :
    (run_scoring {} execPass none none {} emptyGit {} false none).functional.score ≤
      (run_scoring {} execPass (some execPass) none {} emptyGit {} false
        none).functional.score :=
  functional_hidden_monotone {} execPass none execPass none {} emptyGit {} false none
    rfl rfl (by decide)

/-- C5 counterexample: with a negative configured `functional_hidden`
weight, flipping the hidden test result from absent (failing) to passing
strictly decreases the functional score — refuting the claim for every
input. -/
theorem functional_hidden_monotone_counterexample :
    (run_scoring negHiddenScoring execPass (some execPass) none {} emptyGit {} false
      none).functional.score <
    (run_scoring negHiddenScoring execPass none none {} emptyGit {} false
      none).functional.score := by
  decide

/-- C4: with penalty parameters resolving to first=20, additional=10,
cap=40, the manual-tampering penalty over the combined incident count
(evidence lines plus normalization issues) is 0 for 0 incidents, 20 for 1,
30 for 2, and 40 for every count of at least 3 (saturating at the cap). -/
theorem manual_tak_penalty_schedule (scoring : ScoringMap) (pub : ExecResult)
    (hr cp : Option ExecResult) (tak : TakMetrics) (git : GitMetrics)
    (tr : TranscriptMetrics) (ci : Bool) (ce : Option Int)
    (h1 : scoring.penaltyManualTakFirst.getD 20 = 20)
    (h2 : scoring.penaltyManualTakAdditional.getD 10 = 10)
    (h3 : scoring.penaltyManualTakCap.getD 40 = 40) :
    (tr.manualTakEditEvidence.length + tak.normalizationIssues.length = 0 →
      (run_scoring scoring pub hr cp tak git tr ci ce).penalties.components.manualTakEdits = 0) ∧
    (tr.manualTakEditEvidence.length + tak.normalizationIssues.length = 1 →
      (run_scoring scoring pub hr cp tak git tr ci ce).penalties.components.manualTakEdits = 20) ∧
    (tr.manualTakEditEvidence.length + tak.normalizationIssues.length = 2 →
      (run_scoring scoring pub hr cp tak git tr ci ce).penalties.components.manualTakEdits = 30) ∧
    (3 ≤ tr.manualTakEditEvidence.length + tak.normalizationIssues.length →
      (run_scoring scoring pub hr cp tak git tr ci ce).penalties.components.manualTakEdits = 40) := by
  have hval : (run_scoring scoring pub hr cp tak git tr ci ce).penalties.components.manualTakEdits =
      (if 0 < tr.manualTakEditEvidence.length + tak.normalizationIssues.length then
        min (scoring.penaltyManualTakCap.getD 40)
          (scoring.penaltyManualTakFirst.getD 20 +
            max 0 (((tr.manualTakEditEvidence.length + tak.normalizationIssues.length : Nat) : Int) - 1) *
              scoring.penaltyManualTakAdditional.getD 10)
      else 0) := rfl
  rw [hval, h1, h2, h3]
  refine ⟨fun h => ?_, fun h => ?_, fun h => ?_, fun h => ?_⟩
  · rw [h]; decide
  · rw [h]; decide
  · rw [h]; decide
  · rw [if_pos (by omega)]
    omega

/-- C4 witness: one tampering-evidence line with the default penalty
parameters yields a manual-tampering penalty of 20. -/
theorem manual_tak_penalty_schedule_witness :
    (run_scoring {} execPass none none {} emptyGit oneEvidenceTranscript false
      none).penalties.components.manualTakEdits = 20 :=
  (manual_tak_penalty_schedule {} execPass none none {} emptyGit oneEvidenceTranscript
    false none rfl rfl rfl).2.1 rfl

/-- C3 (amended): the small-commit ratio always lies in [0, 1], and it
equals 1 for every non-empty commit list in which every commit touches
between 1 and 3 files (the code counts a commit as small only when
`0 < file_count ≤ 3`). -/
theorem small_commit_ratio_bounds (commits : List Commit) (ce : Option Int) :
    (0 ≤ (collect_git_metrics commits ce).smallCommitRatio ∧
      (collect_git_metrics commits ce).smallCommitRatio ≤ 1) ∧
    (commits ≠ [] →
      (∀ c ∈ commits, 1 ≤ c.files.length ∧ c.files.length ≤ 3) →
      (collect_git_metrics commits ce).smallCommitRatio = 1) := by
  have hval : (collect_git_metrics commits ce).smallCommitRatio =
      (if 0 < commits.length then
        ((commits.countP
          (fun c => decide (0 < c.files.length) && decide (c.files.length ≤ 3)) : ℚ) /
          (commits.length : ℚ))
      else 0) := rfl
  constructor
  · rw [hval]
    by_cases h : 0 < commits.length
    · rw [if_pos h]
      have hlenpos : (0 : ℚ) < (commits.length : ℚ) := by exact_mod_cast h
      constructor
      · positivity
      · rw [div_le_one hlenpos]
        exact_mod_cast commits.countP_le_length _
    · rw [if_neg h]
      norm_num
  · intro hne hall
    have hlen : 0 < commits.length := List.length_pos.mpr hne
    rw [hval, if_pos hlen]
    have hcount : commits.countP
        (fun c => decide (0 < c.files.length) && decide (c.files.length ≤ 3)) =
        commits.length := by
      refine List.countP_eq_length.mpr (fun c hc => ?_)
      obtain ⟨hc1, hc3⟩ := hall c hc
      simp only [Bool.and_eq_true, decide_eq_true_eq]
      exact ⟨hc1, hc3⟩
    rw [hcount]
    exact div_self (by exact_mod_cast hlen.ne')

/-- C3 witness: a single commit touching one file gives ratio 1. -/
theorem small_commit_ratio_bounds_witness :
    (collect_git_metrics [smallCommit] none).smallCommitRatio = 1 :=
  (small_commit_ratio_bounds [smallCommit] none).2 (by simp) (by decide)

/-- C3 counterexample: a non-empty commit list in which every commit
touches at most 3 files but whose single commit touches 0 files has
small-commit ratio 0, not 1 — refuting "equals 1 when every commit touches
at most 3 files". -/
theorem small_commit_ratio_counterexample :
    [emptyFilesCommit] ≠ [] ∧
    [emptyFilesCommit].all touchesAtMostThreeFiles = true ∧
    (collect_git_metrics [emptyFilesCommit] none).smallCommitRatio ≠ 1 := by
  refine ⟨by simp, by decide, ?_⟩
  have hval : (collect_git_metrics [emptyFilesCommit] none).smallCommitRatio =
      (if 0 < [emptyFilesCommit].length then
        (([emptyFilesCommit].countP
          (fun c => decide (0 < c.files.length) && decide (c.files.length ≤ 3)) : ℚ) /
          ([emptyFilesCommit].length : ℚ))
      else 0) := rfl
  have hcount : [emptyFilesCommit].countP
      (fun c => decide (0 < c.files.length) && decide (c.files.length ≤ 3)) = 0 := by
    decide
  rw [hval, if_pos (by decide), hcount]
  norm_num

/-- A loop iteration reports the injection latch as it was in the incoming
state. -/
theorem step_injectedBefore (o : ObjectiveConfig) (env : LoopEnv) (s : LoopState) :
    (driveLoopStep o env s).1.injectedBefore = s.changeInjected := rfl

/-- After an iteration the latch is the old latch or-ed with this
iteration's trigger (`if change_trigger and not change_injected:
change_injected = True`). -/
theorem step_injectedAfter (o : ObjectiveConfig) (env : LoopEnv) (s : LoopState) :
    (driveLoopStep o env s).1.injectedAfter =
      (s.changeInjected || (driveLoopStep o env s).1.trigger) := rfl

/-- The successor state's latch is the recorded post-iteration latch. -/
theorem step_state_injected (o : ObjectiveConfig) (env : LoopEnv) (s : LoopState) :
    (driveLoopStep o env s).2.1.changeInjected = (driveLoopStep o env s).1.injectedAfter := rfl

/-- A true change trigger implies the elapsed time reached
`change_min_minutes * 60` (the first conjunct of the trigger). -/
theorem step_trigger_minChange (o : ObjectiveConfig) (env : LoopEnv) (s : LoopState)
    (h : (driveLoopStep o env s).1.trigger = true) :
    minChangeSeconds o ≤ (driveLoopStep o env s).1.elapsed := by
  have h2 : (driveLoopStep o env s).1.trigger =
      (decide (minChangeSeconds o ≤ ((s.now : Nat) : Int)) &&
        ((driveLoopStep o env s).1.phase1DoneSeen ||
          (driveLoopStep o env s).1.publicProbePass ||
          decide (targetChangeSeconds o ≤ ((s.now : Nat) : Int)))) := rfl
  have he : (driveLoopStep o env s).1.elapsed = ((s.now : Nat) : Int) := rfl
  rw [he]
  rw [h2] at h
  exact of_decide_eq_true ((Bool.and_eq_true _ _).mp h).1

/-- An iteration that injects the change prompt records the injection epoch
as that iteration's clock value. -/
theorem step_inject_epoch (o : ObjectiveConfig) (env : LoopEnv) (s : LoopState)
    (h : injectionAt (driveLoopStep o env s).1 = true) :
    (driveLoopStep o env s).1.epochAfter = some (driveLoopStep o env s).1.tNow := by
  have hb : (driveLoopStep o env s).1.injectedBefore = s.changeInjected := rfl
  have ha : (driveLoopStep o env s).1.injectedAfter =
      (s.changeInjected || (driveLoopStep o env s).1.trigger) := rfl
  rw [injectionAt, hb, ha] at h
  have hcf : s.changeInjected = false := by
    cases hc : s.changeInjected
    · rfl
    · rw [hc] at h; simp at h
  rw [hcf] at h
  simp only [Bool.not_false, Bool.false_or, Bool.true_and] at h
  have he : (driveLoopStep o env s).1.epochAfter =
      (if ((driveLoopStep o env s).1.trigger && !s.changeInjected) then some s.now
        else s.changeInjectedEpoch) := rfl
  have ht : (driveLoopStep o env s).1.tNow = s.now := rfl
  rw [he, ht, h, hcf]
  simp

/-- With positive fuel the main loop always executes at least one
iteration (the loop body runs before any ending check can fire). -/
theorem driveLoop_trace_ne_nil (o : ObjectiveConfig) (env : LoopEnv) (fuel : Nat)
    (s : LoopState) (hf : 0 < fuel) : (driveLoop o env fuel s).1 ≠ [] := by
  cases fuel with
  | zero => exact absurd hf (by simp)
  | succ k =>
    rcases hstep : driveLoopStep o env s with ⟨r0, s2, br⟩
    cases br with
    | none => simp [driveLoop, hstep]
    | some reason => simp [driveLoop, hstep]

/-- Every record in a loop trace is the iteration record produced by
`driveLoopStep` from some state. -/
theorem driveLoop_mem_step (o : ObjectiveConfig) (env : LoopEnv) (fuel : Nat) :
    ∀ s r, r ∈ (driveLoop o env fuel s).1 → ∃ s0, r = (driveLoopStep o env s0).1 := by
  induction fuel with
  | zero => intro s r h; simp [driveLoop] at h
  | succ k ih =>
    intro s r h
    rcases hstep : driveLoopStep o env s with ⟨r0, s2, br⟩
    cases br with
    | some reason =>
      simp only [driveLoop, hstep, List.mem_singleton] at h
      exact ⟨s, by rw [h, hstep]⟩
    | none =>
      simp only [driveLoop, hstep, List.mem_cons] at h
      rcases h with h | h
      · exact ⟨s, by rw [h, hstep]⟩
      · exact ih s2 r h

/-- The injection latch a trace record reports as "before" is the initial
latch or-ed with the triggers of all earlier iterations of the trace. -/
theorem driveLoop_injectedBefore (o : ObjectiveConfig) (env : LoopEnv) (fuel : Nat) :
    ∀ s i, i < (driveLoop o env fuel s).1.length →
      (((driveLoop o env fuel s).1.getD i default).injectedBefore =
        (s.changeInjected || ((driveLoop o env fuel s).1.take i).any iterTrigger)) := by
  induction fuel with
  | zero => intro s i h; simp [driveLoop] at h
  | succ k ih =>
    intro s i h
    rcases hstep : driveLoopStep o env s with ⟨r0, s2, br⟩
    have hb : r0.injectedBefore = s.changeInjected := by
      have := step_injectedBefore o env s
      rw [hstep] at this
      exact this
    cases br with
    | some reason =>
      simp only [driveLoop, hstep, List.length_singleton] at h
      have hi0 : i = 0 := by omega
      subst hi0
      simp [driveLoop, hstep, hb]
    | none =>
      cases i with
      | zero =>
        simp [driveLoop, hstep, hb]
      | succ j =>
        have hs2 : s2.changeInjected = (s.changeInjected || r0.trigger) := by
          have h1 := step_state_injected o env s
          have h2 := step_injectedAfter o env s
          rw [hstep] at h1 h2
          exact h1.trans h2
        have hlen : j < (driveLoop o env k s2).1.length := by
          simp only [driveLoop, hstep, List.length_cons] at h
          omega
        have := ih s2 j hlen
        simp only [driveLoop, hstep, List.getD_cons_succ, List.take_succ_cons, List.any_cons]
        rw [this, hs2, iterTrigger, Bool.or_assoc]

/-- Once the injection latch is set, no later iteration injects again. -/
theorem driveLoop_no_injection (o : ObjectiveConfig) (env : LoopEnv) (fuel : Nat) :
    ∀ s, s.changeInjected = true →
      (driveLoop o env fuel s).1.countP injectionAt = 0 := by
  induction fuel with
  | zero => intro s _; simp [driveLoop]
  | succ k ih =>
    intro s h
    rcases hstep : driveLoopStep o env s with ⟨r0, s2, br⟩
    have hb : r0.injectedBefore = s.changeInjected := by
      have := step_injectedBefore o env s
      rw [hstep] at this
      exact this
    have hno : injectionAt r0 = false := by
      rw [injectionAt, hb, h]
      simp
    cases br with
    | some reason => simp [driveLoop, hstep, List.countP_cons, hno]
    | none =>
      have hs2 : s2.changeInjected = true := by
        have h1 := step_state_injected o env s
        have h2 := step_injectedAfter o env s
        rw [hstep] at h1 h2
        rw [h1, h2, h]
        simp
      simp [driveLoop, hstep, List.countP_cons, hno, ih s2 hs2]

/-- The change prompt is injected at most once over a whole loop run. -/
theorem driveLoop_injection_once (o : ObjectiveConfig) (env : LoopEnv) (fuel : Nat) :
    ∀ s, (driveLoop o env fuel s).1.countP injectionAt ≤ 1 := by
  induction fuel with
  | zero => intro s; simp [driveLoop]
  | succ k ih =>
    intro s
    rcases hstep : driveLoopStep o env s with ⟨r0, s2, br⟩
    cases br with
    | some reason =>
      simp only [driveLoop, hstep, List.countP_cons, List.countP_nil]
      cases injectionAt r0 <;> simp
    | none =>
      by_cases hinj : injectionAt r0 = true
      · have hafter : r0.injectedAfter = true := by
          rw [injectionAt] at hinj
          exact ((Bool.and_eq_true _ _).mp hinj).2
        have hs2 : s2.changeInjected = true := by
          have h1 := step_state_injected o env s
          rw [hstep] at h1
          rw [h1, hafter]
        have hrest := driveLoop_no_injection o env k s2 hs2
        simp [driveLoop, hstep, List.countP_cons, hinj, hrest]
      · have hfalse : injectionAt r0 = false := by
          cases hx : injectionAt r0
          · rfl
          · exact absurd hx hinj
        have hrest := ih s2
        simp only [driveLoop, hstep, List.countP_cons, hfalse]
        simpa using hrest

/-- C9: in every main-loop run, each iteration's post-latch is its pre-latch
or-ed with its trigger; the pre-latch is exactly "some earlier iteration
triggered", so injection happens exactly at the first iteration whose
trigger `elapsed ≥ minChange ∧ (phase1Seen ∨ probePassed ∨ elapsed ≥
targetChange)` is true; an injecting iteration satisfies the minChange
bound and records the injection timestamp; and injection happens at most
once over the whole run. -/
theorem change_injection_latch (o : ObjectiveConfig) (env : LoopEnv) (fuel i : Nat)
    (hi : i < (driveTrace o env fuel).length) :
    (((driveTrace o env fuel).getD i default).injectedAfter =
      (((driveTrace o env fuel).getD i default).injectedBefore ||
        ((driveTrace o env fuel).getD i default).trigger)) ∧
    (((driveTrace o env fuel).getD i default).injectedBefore =
      ((driveTrace o env fuel).take i).any iterTrigger) ∧
    (injectionAt ((driveTrace o env fuel).getD i default) = true →
      minChangeSeconds o ≤ ((driveTrace o env fuel).getD i default).elapsed ∧
      ((driveTrace o env fuel).getD i default).epochAfter =
        some ((driveTrace o env fuel).getD i default).tNow) ∧
    (driveTrace o env fuel).countP injectionAt ≤ 1 := by
  have hmem : (driveTrace o env fuel).getD i default ∈ driveTrace o env fuel := by
    rw [List.getD_eq_get _ _ hi]
    exact List.get_mem _ _ _
  obtain ⟨s0, hs0⟩ := driveLoop_mem_step o env fuel (initLoopState o) _ hmem
  refine ⟨?_, ?_, ?_, ?_⟩
  · rw [hs0, step_injectedAfter, step_injectedBefore]
  · have := driveLoop_injectedBefore o env fuel (initLoopState o) i hi
    simpa [driveTrace, initLoopState] using this
  · intro hinj
    rw [hs0] at hinj
    constructor
    · have htrig : (driveLoopStep o env s0).1.trigger = true := by
        rw [injectionAt] at hinj
        obtain ⟨hnb, haf⟩ := (Bool.and_eq_true _ _).mp hinj
        have := step_injectedAfter o env s0
        rw [haf] at this
        have hbf : s0.changeInjected = false := by
          have hb := step_injectedBefore o env s0
          cases hx : s0.changeInjected
          · rfl
          · rw [hb.symm] at hx
            rw [hx] at hnb
            simp at hnb
        rw [hbf] at this
        simpa using this.symm
      rw [hs0]
      exact step_trigger_minChange o env s0 htrig
    · rw [hs0]
      exact step_inject_epoch o env s0 hinj
  · exact driveLoop_injection_once o env fuel (initLoopState o)

/-- C9 witness: a concrete bounded run satisfies the latch law and the
at-most-once property. -/
theorem change_injection_latch_witness :
    (((driveTrace cfgTimeout envQuiet 1).getD 0 default).injectedAfter =
      (((driveTrace cfgTimeout envQuiet 1).getD 0 default).injectedBefore ||
        ((driveTrace cfgTimeout envQuiet 1).getD 0 default).trigger)) ∧
    (driveTrace cfgTimeout envQuiet 1).countP injectionAt ≤ 1 := by
  have h := change_injection_latch cfgTimeout envQuiet 1 0 (by decide)
  exact ⟨h.1, h.2.2.2⟩

/-- The three loop-ending checks of one iteration can only produce the
reasons "worker_pane_dead", "final_done_token_seen" or
"time_budget_reached". -/
theorem driveLoopStep_break_reasons (o : ObjectiveConfig) (env : LoopEnv)
    (s : LoopState) (reason : String)
    (h : (driveLoopStep o env s).2.2 = some reason) :
    reason = "worker_pane_dead" ∨ reason = "final_done_token_seen" ∨
      reason = "time_budget_reached" := by
  have hval : (driveLoopStep o env s).2.2 =
      (if (driveLoopStep o env s).1.paneDead then some "worker_pane_dead"
       else if ((driveLoopStep o env s).1.injectedAfter &&
          (driveLoopStep o env s).1.finalDoneSeen) then some "final_done_token_seen"
       else if budgetSeconds o ≤ (driveLoopStep o env s).1.elapsed then
          some "time_budget_reached"
       else none) := rfl
  rw [hval] at h
  split_ifs at h with h1 h2 h3
  · exact Or.inl (Option.some.inj h).symm
  · exact Or.inr (Or.inl (Option.some.inj h).symm)
  · exact Or.inr (Or.inr (Option.some.inj h).symm)

/-- The end reason a loop run reports always comes from the three ending
checks of some iteration. -/
theorem driveLoop_end_reasons (o : ObjectiveConfig) (env : LoopEnv) (fuel : Nat) :
    ∀ s reason s2, (driveLoop o env fuel s).2 = some (reason, s2) →
      reason = "worker_pane_dead" ∨ reason = "final_done_token_seen" ∨
        reason = "time_budget_reached" := by
  induction fuel with
  | zero => intro s reason s2 h; simp [driveLoop] at h
  | succ k ih =>
    intro s reason s2 h
    rcases hstep : driveLoopStep o env s with ⟨r0, st2, br⟩
    cases br with
    | some rs =>
      simp only [driveLoop, hstep] at h
      obtain ⟨hr, _⟩ := Prod.mk.injEq .. ▸ Option.some.inj h
      subst hr
      exact driveLoopStep_break_reasons o env s rs (by rw [hstep])
    | none =>
      simp only [driveLoop, hstep] at h
      exact ih st2 reason s2 h

/-- C1 (amended): the main loop's end reason is always one of
"worker_pane_dead", "final_done_token_seen" and "time_budget_reached", and
an iteration ends the run with reason "time_budget_reached" precisely when
the pane is alive, the injected-and-final-token condition did not fire, and
the elapsed time reached the time budget. -/
theorem end_reason_budget (o : ObjectiveConfig) (env : LoopEnv) (s : LoopState)
    (fuel : Nat) (s2 : LoopState) (reason : String)
    (hend : (driveLoop o env fuel s).2 = some (reason, s2)) :
    (reason = "worker_pane_dead" ∨ reason = "final_done_token_seen" ∨
      reason = "time_budget_reached") ∧
    ((driveLoopStep o env s).2.2 = some "time_budget_reached" ↔
      ((driveLoopStep o env s).1.paneDead = false ∧
        ((driveLoopStep o env s).1.injectedAfter &&
          (driveLoopStep o env s).1.finalDoneSeen) = false ∧
        budgetSeconds o ≤ (driveLoopStep o env s).1.elapsed)) := by
  constructor
  · exact driveLoop_end_reasons o env fuel s reason s2 hend
  · have hval : (driveLoopStep o env s).2.2 =
        (if (driveLoopStep o env s).1.paneDead then some "worker_pane_dead"
         else if ((driveLoopStep o env s).1.injectedAfter &&
            (driveLoopStep o env s).1.finalDoneSeen) then some "final_done_token_seen"
         else if budgetSeconds o ≤ (driveLoopStep o env s).1.elapsed then
            some "time_budget_reached"
         else none) := rfl
    rw [hval]
    split_ifs with h1 h2 h3
    · simp [h1]
    · constructor
      · intro hx
        exact absurd (Option.some.inj hx) (by decide)
      · intro ⟨_, hx, _⟩
        rw [h2] at hx
        simp at hx
    · simp only [Bool.not_eq_true] at h1
      constructor
      · intro _
        refine ⟨h1, ?_, h3⟩
        cases hx : ((driveLoopStep o env s).1.injectedAfter &&
            (driveLoopStep o env s).1.finalDoneSeen)
        · rfl
        · exact absurd hx h2
      · intro _
        rfl
    · constructor
      · intro hx
        simp at hx
      · intro ⟨_, _, hx⟩
        exact absurd hx h3

/-- C1 witness: a run with a zero time budget, a live pane and no tokens
ends through the budget check, and the iteration-level characterization
holds there. -/
theorem end_reason_budget_witness :
    ("time_budget_reached" = "worker_pane_dead" ∨
      "time_budget_reached" = "final_done_token_seen" ∨
      "time_budget_reached" = "time_budget_reached") ∧
    ((driveLoopStep cfgTimeout envQuiet (initLoopState cfgTimeout)).2.2 =
        some "time_budget_reached" ↔
      ((driveLoopStep cfgTimeout envQuiet (initLoopState cfgTimeout)).1.paneDead = false ∧
        ((driveLoopStep cfgTimeout envQuiet (initLoopState cfgTimeout)).1.injectedAfter &&
          (driveLoopStep cfgTimeout envQuiet (initLoopState cfgTimeout)).1.finalDoneSeen) = false ∧
        budgetSeconds cfgTimeout ≤
          (driveLoopStep cfgTimeout envQuiet (initLoopState cfgTimeout)).1.elapsed)) :=
  end_reason_budget cfgTimeout envQuiet (initLoopState cfgTimeout) 1
    ⟨5, 90, false, false, false, false, none⟩ "time_budget_reached" (by decide)

/-- C1 counterexample: when the elapsed time reaches the budget the loop
ends with reason "time_budget_reached", which differs from the reason
"timeout" claimed by the specification. -/
theorem end_reason_budget_counterexample :
    ((driveLoop cfgTimeout envQuiet 1 (initLoopState cfgTimeout)).2.map Prod.fst =
      some "time_budget_reached") ∧
    "time_budget_reached" ≠ "timeout" :=
  ⟨by decide, by decide⟩

/-- When the token never appears at any poll before the deadline, the token
polling loop runs out its remaining polls and reports
"ready_token_timeout", having waited for all of them. -/
theorem tokenPoll_timeout (strategy token : String) (tr : Nat → String) :
    ∀ k t, (∀ j, j < k → strIn token (tr (t + j)) = false) →
      tokenPoll strategy token tr k t = ⟨false, strategy, t + k, "ready_token_timeout"⟩ := by
  intro k
  induction k with
  | zero => intro t _; simp [tokenPoll]
  | succ m ih =>
    intro t h
    have h0 : strIn token (tr t) = false := by
      have := h 0 (Nat.succ_pos m)
      simpa using this
    rw [tokenPoll, h0]
    simp only [Bool.false_eq_true, if_false]
    have hrec := ih (t + 1) (fun j hj => by
      have := h (j + 1) (Nat.succ_lt_succ hj)
      have harith : t + (j + 1) = t + 1 + j := by omega
      rw [harith] at this
      exact this)
    rw [hrec]
    have harith2 : t + 1 + m = t + (m + 1) := by omega
    rw [harith2]

/-- C8: under the "token" readiness strategy, if the ready token never
appears in the transcript before the (≥1s-clamped) ready timeout elapses,
the readiness wait reports ready=false with reason "ready_token_timeout"
after exactly the clamped timeout, and the driver does not abort: it still
emits the worker_ready and initial_prompt events in order and enters the
main loop. -/
theorem token_timeout_nonfatal (o : ObjectiveConfig) (env : LoopEnv)
    (htr : o.workerPromptTransport = "tmux_buffer_paste")
    (hst : o.workerReadyStrategy = "token")
    (hto : ∀ t, t < (max 1 o.workerReadyTimeoutSeconds).toNat →
      strIn o.workerReadyToken (env.readyTranscriptAt t) = false) :
    driveReadyState o env =
      .ok ⟨false, "token", (max 1 o.workerReadyTimeoutSeconds).toNat,
        "ready_token_timeout"⟩ ∧
    drivePreludeEvents o env =
      .ok ["setup", "setup", "setup", "worker_start", "worker_ready", "initial_prompt"] ∧
    driveLoopEntered o env = .ok true := by
  have hready : wait_for_worker_ready o env.readyTranscriptAt =
      ⟨false, "token", (max 1 o.workerReadyTimeoutSeconds).toNat,
        "ready_token_timeout"⟩ := by
    rw [wait_for_worker_ready, hst]
    rw [if_neg (by decide), if_neg (by decide)]
    have := tokenPoll_timeout "token" o.workerReadyToken env.readyTranscriptAt
      ((max 1 o.workerReadyTimeoutSeconds).toNat) 0 (fun j hj => by
        have := hto j hj
        simpa using this)
    simpa using this
  have hguard : drive_worker_session o env =
      .ok ⟨["setup", "setup", "setup", "worker_start", "worker_ready", "initial_prompt"],
        wait_for_worker_ready o env.readyTranscriptAt,
        (driveLoop o env ((budgetSeconds o).toNat + 1) (initLoopState o)).1,
        (driveLoop o env ((budgetSeconds o).toNat + 1) (initLoopState o)).2⟩ := by
    rw [drive_worker_session, htr]
    simp
  have hne : (driveLoop o env ((budgetSeconds o).toNat + 1) (initLoopState o)).1 ≠ [] :=
    driveLoop_trace_ne_nil o env _ (initLoopState o) (Nat.succ_pos _)
  refine ⟨?_, ?_, ?_⟩
  · rw [driveReadyState, hguard, hready]
    rfl
  · rw [drivePreludeEvents, hguard]
    rfl
  · rw [driveLoopEntered, hguard]
    cases htrace : (driveLoop o env ((budgetSeconds o).toNat + 1) (initLoopState o)).1 with
    | nil => exact absurd htrace hne
    | cons a t => rfl

/-- C8 witness: a concrete token-strategy objective whose token never
appears within its one-second timeout reports "ready_token_timeout" and the
driver still enters the main loop. -/
theorem token_timeout_nonfatal_witness :
    driveReadyState cfgTimeout envQuiet =
      .ok ⟨false, "token", 1, "ready_token_timeout"⟩ ∧
    driveLoopEntered cfgTimeout envQuiet = .ok true := by
  have h := token_timeout_nonfatal cfgTimeout envQuiet rfl rfl (by decide)
  exact ⟨h.1, h.2.2⟩

end Takbench
